import Mathlib

/-!
Formal model of the LBTS thrift-store server (Node/Express + PostgreSQL).

The relational store is embedded shallowly: each table is a `List` of row
structures, a row's `deleted_at` field is the soft-delete marker, and the
wall clock (`CURRENT_DATE`) is passed explicitly as an integer day count
`today`.  Monetary amounts are integers (cents).  Audit-only columns
(`created_at`, `updated_at`, `created_by`, timestamps inside rows) are not
modelled: no verified property mentions them.

Each definition carries a comment naming the route handler or SQL statement
in the repository that it embeds.
-/

namespace LBTS

/-- Error taxonomy of the request boundary: 400 ValidationError,
403 PermissionError, 404 NotFoundError, 409 ConflictError, and a
StorageError for failures reported by the persistence layer (HTTP 500). -/
inductive ApiError where
  | validation (msg : String)
  | permission (msg : String)
  | notFound (msg : String)
  | conflict (msg : String)
  | storage (msg : String)
deriving DecidableEq

/-- True exactly for the `validation` class of errors. -/
def ApiError.isValidation : ApiError → Bool
  | .validation _ => true
  | _ => false

/-- A raw `week` value as it arrives in a request body.  `.int k` models a
numeric value (or a numeric string, which JS `parseInt` turns into `k`);
`.text s` models a non-numeric string such as the `"color-cycle"` sentinel,
on which JS `parseInt` yields `NaN`. -/
inductive RawWeek where
  | int (k : Int)
  | text (s : String)
deriving DecidableEq

/-- JS `parseInt` on a raw week value: numbers parse to themselves,
non-numeric strings give `NaN` (modelled as `none`). -/
def parseIntRaw : RawWeek → Option Int
  | .int k => some k
  | .text _ => none

/-- Whether a raw week value is an integer (storable in the `INTEGER`
`week` column of `exclusive_items`). -/
def RawWeek.isInt : RawWeek → Bool
  | .int _ => true
  | .text _ => false

/-- The integer carried by a raw week value, with a default for the
non-numeric case. -/
def RawWeek.toIntD : RawWeek → Int → Int
  | .int k, _ => k
  | .text _, d => d

/-- A row of the `exclusive_items` table (red-tag inventory).
Schema: `category VARCHAR`, `picture_url TEXT`, `date_arrived DATE`,
`current_price DECIMAL`, `week INTEGER`, `notes TEXT`, `deleted_at TIMESTAMP`. -/
structure ExclusiveItem where
  id : Nat
  category : String
  picture_url : Option String
  date_arrived : Int
  current_price : Int
  week : Int
  notes : Option String
  deleted_at : Option Int
deriving DecidableEq

/-- The row-level effect of the `autoPromoteToWeek5` SQL statement:
`SET week = 5 WHERE deleted_at IS NULL AND week = 4 AND
CURRENT_DATE - date_arrived >= 28`. -/
def promoteRow (today : Int) (it : ExclusiveItem) : ExclusiveItem :=
  if it.deleted_at = none ∧ it.week = 4 ∧ 28 ≤ today - it.date_arrived then
    { it with week := 5 }
  else it

/-- `autoPromoteToWeek5` helper of `src/routes/exclusive-items.js`:
the read-time promotion sweep over the whole table. -/
def autoPromoteToWeek5 (today : Int) (db : List ExclusiveItem) : List ExclusiveItem :=
  db.map (promoteRow today)

/-- The `ORDER BY week ASC, date_arrived DESC` ordering of the full listing. -/
def itemLe (a b : ExclusiveItem) : Prop :=
  a.week < b.week ∨ (a.week = b.week ∧ b.date_arrived ≤ a.date_arrived)

instance : DecidableRel itemLe := fun a b => by
  unfold itemLe
  exact inferInstance

instance : IsTotal ExclusiveItem itemLe := ⟨by
  intro a b
  unfold itemLe
  omega⟩

instance : IsTrans ExclusiveItem itemLe := ⟨by
  intro a b c
  unfold itemLe
  omega⟩

/-- The `ORDER BY date_arrived ASC` ordering of the alerts and color-cycle
listings. -/
def arrivalLe (a b : ExclusiveItem) : Prop :=
  a.date_arrived ≤ b.date_arrived

instance : DecidableRel arrivalLe := fun a b => by
  unfold arrivalLe
  exact inferInstance

instance : IsTotal ExclusiveItem arrivalLe := ⟨by
  intro a b
  unfold arrivalLe
  omega⟩

instance : IsTrans ExclusiveItem arrivalLe := ⟨by
  intro a b c
  unfold arrivalLe
  omega⟩

/-- The optional `category = $1` clause of the full listing. -/
def categoryMatches (cf : Option String) (c : String) : Prop :=
  match cf with
  | some c0 => c = c0
  | none => True

instance (cf : Option String) (c : String) : Decidable (categoryMatches cf c) := by
  unfold categoryMatches
  cases cf with
  | none => exact inferInstanceAs (Decidable True)
  | some c0 => exact inferInstanceAs (Decidable (c = c0))

/-- `GET /api/exclusive-items`: runs the promotion sweep, then selects the
non-deleted rows (optionally filtered by category), ordered by week
ascending then arrival date descending.  Returns the persisted table after
the sweep together with the response rows. -/
def listItems (today : Int) (categoryFilter : Option String) (db : List ExclusiveItem) :
    List ExclusiveItem × List ExclusiveItem :=
  let db2 := autoPromoteToWeek5 today db
  (db2, List.insertionSort itemLe (db2.filter fun it =>
    decide (it.deleted_at = none ∧ categoryMatches categoryFilter it.category)))

/-- The alert-subscription columns of a `users` row. -/
structure AppUser where
  id : Nat
  furniture_alerts : Bool
  clothing_alerts : Bool
  bricabrac_alerts : Bool
deriving DecidableEq

/-- The categories list assembled from the caller's three subscription
flags in `GET /api/exclusive-items/alerts`. -/
def subscribedCategories (u : AppUser) : List String :=
  (if u.furniture_alerts then ["Furniture"] else []) ++
    (if u.clothing_alerts then ["Clothing"] else []) ++
      (if u.bricabrac_alerts then ["Bric-a-Brac"] else [])

/-- The aging condition of the alerts query: week 1 after 7 days, week 2
after 14, week 3 after 21, and every week-5 row unconditionally. -/
def alertDue (today : Int) (it : ExclusiveItem) : Prop :=
  (it.week = 1 ∧ 7 ≤ today - it.date_arrived) ∨
    (it.week = 2 ∧ 14 ≤ today - it.date_arrived) ∨
      (it.week = 3 ∧ 21 ≤ today - it.date_arrived) ∨
        it.week = 5

instance (today : Int) (it : ExclusiveItem) : Decidable (alertDue today it) := by
  unfold alertDue
  exact inferInstance

/-- `GET /api/exclusive-items/alerts`: resolves the caller's subscription
flags (404 when the user row is missing), returns `[]` when no category is
subscribed, and otherwise the non-deleted rows of a subscribed category
satisfying the aging condition, ordered by arrival date ascending.
Note: this handler does not run the promotion sweep. -/
def listAlerts (today : Int) (users : List AppUser) (userId : Nat)
    (db : List ExclusiveItem) : Except ApiError (List ExclusiveItem) :=
  match users.find? (fun u => decide (u.id = userId)) with
  | none => .error (.notFound "User not found")
  | some u =>
    let categories := subscribedCategories u
    if categories.isEmpty then .ok []
    else .ok (List.insertionSort arrivalLe (db.filter fun it =>
      decide (it.deleted_at = none ∧ it.category ∈ categories ∧ alertDue today it)))

/-- `GET /api/exclusive-items/color-cycle`: the non-deleted week-5 rows,
ordered by arrival date ascending.  No promotion sweep. -/
def colorCycleItems (db : List ExclusiveItem) : List ExclusiveItem :=
  List.insertionSort arrivalLe (db.filter fun it =>
    decide (it.deleted_at = none ∧ it.week = 5))

/-- `GET /api/exclusive-items/:id`: the first non-deleted row with the
given id, or 404.  No promotion sweep; the stored row is returned as is. -/
def getItem (id : Nat) (db : List ExclusiveItem) : Except ApiError ExclusiveItem :=
  match db.find? (fun it => decide (it.id = id ∧ it.deleted_at = none)) with
  | none => .error (.notFound "Item not found")
  | some it => .ok it

/-- The closed category set of exclusive items. -/
def validCategories : List String := ["Furniture", "Clothing", "Bric-a-Brac"]

/-- `PUT /api/exclusive-items/:id`: requires category, price and week;
validates the category against the closed set; normalizes the
`"color-cycle"` sentinel to week 5; rejects weeks whose `parseInt` is not
in 1..5; 404 when the id has no non-deleted row; otherwise overwrites
category, picture, price, week and notes of that row.  Returns the updated
table and the response. -/
def updateItem (id : Nat) (category : Option String) (current_price : Option Int)
    (week : Option RawWeek) (notes : Option String) (newPicture : Option String)
    (db : List ExclusiveItem) : List ExclusiveItem × Except ApiError ExclusiveItem :=
  match category, current_price, week with
  | some cat, some price, some w0 =>
    if cat ∈ validCategories then
      let w := if w0 = RawWeek.text "color-cycle" then RawWeek.int 5 else w0
      match parseIntRaw w with
      | some k =>
        if k = 1 ∨ k = 2 ∨ k = 3 ∨ k = 4 ∨ k = 5 then
          match db.find? (fun it => decide (it.id = id ∧ it.deleted_at = none)) with
          | none => (db, .error (.notFound "Item not found"))
          | some old =>
            let pic := match newPicture with
              | some p => some p
              | none => old.picture_url
            let upd := fun it : ExclusiveItem =>
              if it.id = id ∧ it.deleted_at = none then
                { it with category := cat, picture_url := pic,
                          current_price := price, week := k, notes := notes }
              else it
            (db.map upd, .ok (upd old))
        else (db, .error (.validation "Week must be 1, 2, 3, 4, or 5"))
      | none => (db, .error (.validation "Week must be 1, 2, 3, 4, or 5"))
    else (db, .error (.validation "Invalid category"))
  | _, _, _ => (db, .error (.validation "Category, price, and week are required"))

/-- One element of the request array of `PATCH /api/exclusive-items/bulk-update`. -/
structure BulkItem where
  id : Nat
  current_price : Int
  week : RawWeek
deriving DecidableEq

/-- One `UPDATE exclusive_items SET current_price = $1, week = $2 WHERE
id = $3 AND deleted_at IS NULL` statement of the bulk route.  A non-numeric
week parameter (such as the raw `"color-cycle"` sentinel) cannot be cast to
the `INTEGER` week column, so that single statement fails and writes
nothing. -/
def bulkApplyOne (db : List ExclusiveItem) (b : BulkItem) : List ExclusiveItem :=
  match b.week with
  | .int k =>
    db.map fun it =>
      if it.id = b.id ∧ it.deleted_at = none then
        { it with current_price := b.current_price, week := k }
      else it
  | .text _ => db

/-- `PATCH /api/exclusive-items/bulk-update`: rejects an empty array, then
issues one independent update per element (no validation of the values, no
transaction).  When every statement succeeds the response reports a count
equal to the length of the submitted array; when a statement fails the
route reports a storage failure, but the other statements still applied. -/
def bulkUpdate (items : List BulkItem) (db : List ExclusiveItem) :
    List ExclusiveItem × Except ApiError Nat :=
  if items.isEmpty then (db, .error (.validation "Items array is required"))
  else
    let db2 := items.foldl bulkApplyOne db
    if items.all (fun b => b.week.isInt) then (db2, .ok items.length)
    else (db2, .error (.storage "Failed to bulk update items"))

/-- Row-level restatement of the bulk route's effect, used to compare the
implementation against the claimed behaviour: the element whose id matches
a non-deleted row overwrites that row's price and week verbatim; rows
matching no element (or soft-deleted rows) are untouched. -/
def bulkRowSpec (items : List BulkItem) (it : ExclusiveItem) : ExclusiveItem :=
  match items.find? (fun b => decide (b.id = it.id)) with
  | none => it
  | some b =>
    if it.deleted_at = none then
      { it with current_price := b.current_price, week := b.week.toIntD it.week }
    else it

/-- A row of the `discount_items` table (furniture approval).
`approval_status` is `"pending"` or `"approved"`. -/
structure DiscountItem where
  id : Nat
  picture_urls : List String
  price : Int
  notes : Option String
  date_added : Int
  approval_status : String
  approval_note : Option String
  approved_by : Option Nat
  deleted_at : Option Int
deriving DecidableEq

/-- `PUT /api/discount-items/:id`: requires a price; 404 when the id has no
non-deleted row; 403 (`Cannot edit approved items`) when the row is already
approved, before any write; otherwise overwrites pictures (when new ones
are uploaded), price and notes. -/
def updateDiscountItem (id : Nat) (price : Option Int) (notes : Option String)
    (newPictures : Option (List String)) (db : List DiscountItem) :
    List DiscountItem × Except ApiError DiscountItem :=
  match price with
  | none => (db, .error (.validation "Price is required"))
  | some p =>
    match db.find? (fun it => decide (it.id = id ∧ it.deleted_at = none)) with
    | none => (db, .error (.notFound "Item not found"))
    | some old =>
      if old.approval_status = "approved" then
        (db, .error (.permission "Cannot edit approved items"))
      else
        let pics := match newPictures with
          | some ps => ps
          | none => old.picture_urls
        let upd := fun it : DiscountItem =>
          if it.id = id ∧ it.deleted_at = none then
            { it with picture_urls := pics, price := p, notes := notes }
          else it
        (db.map upd, .ok (upd old))

/-- `DELETE /api/discount-items/:id`: stamps `deleted_at` on the non-deleted
row with the given id, 404 when there is none.  The handler performs no
check of `approval_status`. -/
def deleteDiscountItem (now : Int) (id : Nat) (db : List DiscountItem) :
    List DiscountItem × Except ApiError Unit :=
  if db.any (fun it => decide (it.id = id ∧ it.deleted_at = none)) then
    (db.map fun it =>
      if it.id = id ∧ it.deleted_at = none then { it with deleted_at := some now }
      else it, .ok ())
  else (db, .error (.notFound "Item not found"))

/-- A row of the `communication_log` table. -/
structure CommEntry where
  id : Nat
  user_id : Nat
  note : String
  category : String
  pinned : Bool
  is_urgent : Bool
  picture_urls : List String
  deleted_at : Option Int
deriving DecidableEq

/-- The communication subsystem's store: the log plus the two per-user
ledgers `urgent_note_dismissals` and `communication_log_reads`, each a list
of (entry id, user id) pairs. -/
structure CommState where
  log : List CommEntry
  dismissals : List (Nat × Nat)
  reads : List (Nat × Nat)
deriving DecidableEq

/-- `INSERT ... ON CONFLICT (note_id, user_id) DO NOTHING` against a ledger
with a UNIQUE constraint on the pair. -/
def insertIgnore (l : List (Nat × Nat)) (p : Nat × Nat) : List (Nat × Nat) :=
  if p ∈ l then l else l ++ [p]

/-- `POST /api/communication/urgent/:id/dismiss`: 404 when the entry is
missing or soft-deleted, 400 when it is not marked urgent; otherwise
records the dismissal pair (ignoring duplicates) and also records a read
receipt for the same pair. -/
def dismissUrgent (id userId : Nat) (st : CommState) : CommState × Except ApiError Unit :=
  match st.log.find? (fun e => decide (e.id = id ∧ e.deleted_at = none)) with
  | none => (st, .error (.notFound "Note not found"))
  | some e =>
    if !e.is_urgent then (st, .error (.validation "Note is not marked as urgent"))
    else
      ({ st with dismissals := insertIgnore st.dismissals (id, userId),
                 reads := insertIgnore st.reads (id, userId) }, .ok ())

/-- `POST /api/communication`: requires a note; only admins may use the
`Urgent` category; stores the entry with `category || 'General'` and
`is_urgent = (category === 'Urgent')`. -/
def createEntry (role : String) (authorId : Nat) (note : Option String)
    (category : Option String) (pinned : Bool) (pics : List String) (newId : Nat)
    (st : CommState) : CommState × Except ApiError CommEntry :=
  match note with
  | none => (st, .error (.validation "Note is required"))
  | some n =>
    if category = some "Urgent" ∧ role ≠ "Admin" then
      (st, .error (.permission "Only admins can create urgent notes"))
    else
      let e : CommEntry :=
        { id := newId, user_id := authorId, note := n,
          category := category.getD "General", pinned := pinned,
          is_urgent := category = some "Urgent", picture_urls := pics,
          deleted_at := none }
      ({ st with log := st.log ++ [e] }, .ok e)

/-- `PUT /api/communication/:id`: requires a note; only admins may set the
`Urgent` category; 404 when the entry is missing or deleted; otherwise
overwrites note, category (`category || 'General'`), pinned flag, pictures,
and recomputes `is_urgent = (category === 'Urgent')`. -/
def updateEntry (role : String) (id : Nat) (note : Option String)
    (category : Option String) (pinned : Bool) (finalPics : List String)
    (st : CommState) : CommState × Except ApiError Unit :=
  match note with
  | none => (st, .error (.validation "Note is required"))
  | some n =>
    if category = some "Urgent" ∧ role ≠ "Admin" then
      (st, .error (.permission "Only admins can create urgent notes"))
    else
      match st.log.find? (fun e => decide (e.id = id ∧ e.deleted_at = none)) with
      | none => (st, .error (.notFound "Entry not found"))
      | some _ =>
        ({ st with log := st.log.map fun e =>
            if e.id = id ∧ e.deleted_at = none then
              { e with note := n, category := category.getD "General",
                       pinned := pinned,
                       is_urgent := category = some "Urgent",
                       picture_urls := finalPics }
            else e }, .ok ())

/-! ### Helper lemmas about the promotion sweep -/

/-- The sweep's row effect under a satisfied predicate. -/
theorem promoteRow_of_cond (today : Int) (it : ExclusiveItem)
    (h : it.deleted_at = none ∧ it.week = 4 ∧ 28 ≤ today - it.date_arrived) :
    promoteRow today it = { it with week := 5 } := by
  unfold promoteRow
  rw [if_pos h]

/-- The sweep's row effect is idempotent. -/
theorem promoteRow_idem (today : Int) (x : ExclusiveItem) :
    promoteRow today (promoteRow today x) = promoteRow today x := by
  unfold promoteRow
  by_cases hc : x.deleted_at = none ∧ x.week = 4 ∧ 28 ≤ today - x.date_arrived
  · rw [if_pos hc, if_neg]
    rintro ⟨-, h4, -⟩
    simp at h4
  · rw [if_neg hc, if_neg hc]

/-- The sweep's row effect never changes week except 4 → 5. -/
theorem promoteRow_week (today : Int) (it : ExclusiveItem) :
    (promoteRow today it).week = it.week
      ∨ (it.week = 4 ∧ (promoteRow today it).week = 5) := by
  unfold promoteRow
  by_cases hc : it.deleted_at = none ∧ it.week = 4 ∧ 28 ≤ today - it.date_arrived
  · rw [if_pos hc]
    exact Or.inr ⟨hc.2.1, rfl⟩
  · rw [if_neg hc]
    exact Or.inl rfl

/-- A week-5 row is a fixpoint of the sweep's row effect. -/
theorem promoteRow_week5_fix (today : Int) (it : ExclusiveItem) (h : it.week = 5) :
    promoteRow today it = it := by
  unfold promoteRow
  rw [if_neg]
  rintro ⟨-, h4, -⟩
  omega

/-- The sweep's row effect preserves every field except `week`. -/
theorem promoteRow_fields (today : Int) (it : ExclusiveItem) :
    (promoteRow today it).deleted_at = it.deleted_at
      ∧ (promoteRow today it).date_arrived = it.date_arrived
      ∧ (promoteRow today it).category = it.category := by
  unfold promoteRow
  by_cases hc : it.deleted_at = none ∧ it.week = 4 ∧ 28 ≤ today - it.date_arrived
  · rw [if_pos hc]
    exact ⟨rfl, rfl, rfl⟩
  · rw [if_neg hc]
    exact ⟨rfl, rfl, rfl⟩

/-- Shape of the alerts response once the user row has been resolved. -/
theorem listAlerts_eq_of_find (today : Int) (users : List AppUser) (userId : Nat)
    (db : List ExclusiveItem) (u : AppUser)
    (hfu : users.find? (fun v => decide (v.id = userId)) = some u) :
    listAlerts today users userId db =
      if (subscribedCategories u).isEmpty = true then Except.ok []
      else Except.ok (List.insertionSort arrivalLe (db.filter fun it =>
        decide (it.deleted_at = none ∧ it.category ∈ subscribedCategories u
          ∧ alertDue today it))) := by
  unfold listAlerts
  rw [hfu]

/-! ### C2 — the full listing -/

/-- C2: for every store state, `listItems` first runs the automatic
promotion sweep (every non-deleted week-4 row aged at least 28 days becomes
week 5), and then returns exactly the non-deleted rows (filtered by
category when a filter is given), sorted by week ascending and, within
equal weeks, by arrival date descending; in particular a non-deleted week-4
item aged at least 28 days that passes the category filter is returned at
week 5. -/
theorem listItems_spec (today : Int) (cf : Option String) (db : List ExclusiveItem) :
    (listItems today cf db).1 = autoPromoteToWeek5 today db
    ∧ List.Perm (listItems today cf db).2
        ((autoPromoteToWeek5 today db).filter fun it =>
          decide (it.deleted_at = none ∧ categoryMatches cf it.category))
    ∧ List.Sorted itemLe (listItems today cf db).2
    ∧ ∀ it ∈ db, it.deleted_at = none → it.week = 4 → 28 ≤ today - it.date_arrived →
        categoryMatches cf it.category → { it with week := 5 } ∈ (listItems today cf db).2 := by
  have hsnd : (listItems today cf db).2 =
      List.insertionSort itemLe ((autoPromoteToWeek5 today db).filter fun it =>
        decide (it.deleted_at = none ∧ categoryMatches cf it.category)) := rfl
  refine ⟨rfl, ?_, ?_, ?_⟩
  · rw [hsnd]
    exact List.perm_insertionSort itemLe _
  · rw [hsnd]
    exact List.sorted_insertionSort itemLe _
  · intro it hmem hdel hw hage hcat
    have h5 : promoteRow today it = { it with week := 5 } :=
      promoteRow_of_cond today it ⟨hdel, hw, hage⟩
    have hmm : { it with week := 5 } ∈ autoPromoteToWeek5 today db := by
      unfold autoPromoteToWeek5
      rw [← h5]
      exact List.mem_map_of_mem _ hmem
    rw [hsnd, List.mem_insertionSort]
    exact List.mem_filter.mpr ⟨hmm, decide_eq_true ⟨hdel, hcat⟩⟩

/-- C2 witness: a concrete week-4 item aged 30 days is listed at week 5. -/
def listedItem : ExclusiveItem :=
  { id := 13, category := "Furniture", picture_url := none, date_arrived := 0,
    current_price := 800, week := 4, notes := none, deleted_at := none }

theorem listItems_spec_witness :
    { listedItem with week := 5 } ∈ (listItems 30 none [listedItem]).2 :=
  (listItems_spec 30 none [listedItem]).2.2.2 listedItem (by decide) rfl rfl
    (by decide) trivial

/-! ### C1 — which read paths run the sweep -/

/-- C1 (amended): for a non-deleted week-4 exclusive item aged at least 28
days, the full listing runs the automatic advancement and surfaces the item
at week 5 — never any row that is still week 4 and due; the alerts listing
and the color-cycle listing do not run the advancement and never include a
week-4 row at all (they only surface rows as stored); the single-item get
does not run the advancement and returns the stored row still at week 4;
and the automatic advancement is idempotent. -/
theorem week4_promotion_read_paths (today : Int) (db : List ExclusiveItem)
    (users : List AppUser) (userId : Nat) (it : ExclusiveItem)
    (hmem : it ∈ db) (hdel : it.deleted_at = none) (hw : it.week = 4)
    (hage : 28 ≤ today - it.date_arrived) :
    ({ it with week := 5 } ∈ (listItems today none db).2
      ∧ ∀ e ∈ (listItems today none db).2, ¬(e.week = 4 ∧ 28 ≤ today - e.date_arrived))
    ∧ (∀ rows, listAlerts today users userId db = Except.ok rows →
        ∀ e ∈ rows, e ∈ db ∧ e.week ≠ 4)
    ∧ (∀ e ∈ colorCycleItems db, e ∈ db ∧ e.week = 5)
    ∧ (db.find? (fun x => decide (x.id = it.id ∧ x.deleted_at = none)) = some it →
        getItem it.id db = Except.ok it)
    ∧ autoPromoteToWeek5 today (autoPromoteToWeek5 today db) = autoPromoteToWeek5 today db := by
  have hsnd : (listItems today none db).2 =
      List.insertionSort itemLe ((autoPromoteToWeek5 today db).filter fun x =>
        decide (x.deleted_at = none ∧ categoryMatches none x.category)) := rfl
  refine ⟨⟨?_, ?_⟩, ?_, ?_, ?_, ?_⟩
  · have h5 : promoteRow today it = { it with week := 5 } :=
      promoteRow_of_cond today it ⟨hdel, hw, hage⟩
    have hmm : { it with week := 5 } ∈ autoPromoteToWeek5 today db := by
      unfold autoPromoteToWeek5
      rw [← h5]
      exact List.mem_map_of_mem _ hmem
    rw [hsnd, List.mem_insertionSort]
    exact List.mem_filter.mpr ⟨hmm, decide_eq_true ⟨hdel, trivial⟩⟩
  · intro e he hdue
    rw [hsnd, List.mem_insertionSort] at he
    obtain ⟨hmap, hpred⟩ := List.mem_filter.mp he
    have hpred2 := of_decide_eq_true hpred
    obtain ⟨x, hx, hfx⟩ := List.mem_map.mp hmap
    by_cases hc : x.deleted_at = none ∧ x.week = 4 ∧ 28 ≤ today - x.date_arrived
    · have : e.week = 5 := by
        rw [← hfx, promoteRow_of_cond today x hc]
      omega
    · have hex : e = x := by
        rw [← hfx]
        unfold promoteRow
        rw [if_neg hc]
      apply hc
      rw [← hex]
      exact ⟨hpred2.1, hdue.1, hdue.2⟩
  · intro rows hrows e he
    cases hfu : users.find? (fun u => decide (u.id = userId)) with
    | none =>
      unfold listAlerts at hrows
      rw [hfu] at hrows
      exact absurd hrows (by simp)
    | some u =>
      rw [listAlerts_eq_of_find today users userId db u hfu] at hrows
      by_cases hemp : (subscribedCategories u).isEmpty = true
      · rw [if_pos hemp] at hrows
        have : rows = [] := by
          cases hrows
          rfl
        rw [this] at he
        exact absurd he (List.not_mem_nil e)
      · rw [if_neg hemp] at hrows
        have hr2 : rows = List.insertionSort arrivalLe (db.filter fun x =>
            decide (x.deleted_at = none ∧ x.category ∈ subscribedCategories u
              ∧ alertDue today x)) := by
          cases hrows
          rfl
        rw [hr2, List.mem_insertionSort] at he
        obtain ⟨hedb, hp⟩ := List.mem_filter.mp he
        have hdue := (of_decide_eq_true hp).2.2
        refine ⟨hedb, ?_⟩
        unfold alertDue at hdue
        omega
  · intro e he
    unfold colorCycleItems at he
    rw [List.mem_insertionSort] at he
    obtain ⟨hedb, hp⟩ := List.mem_filter.mp he
    exact ⟨hedb, (of_decide_eq_true hp).2⟩
  · intro hf
    unfold getItem
    rw [hf]
  · unfold autoPromoteToWeek5
    rw [List.map_map]
    exact List.map_congr_left fun x _ => promoteRow_idem today x

/-- C1 counterexample input: a non-deleted week-4 item aged 30 days. -/
def hiddenWeek4Item : ExclusiveItem :=
  { id := 9, category := "Bric-a-Brac", picture_url := none, date_arrived := 0,
    current_price := 1500, week := 4, notes := none, deleted_at := none }

/-- C1 counterexample: the single-item get surfaces the week-4 aged item
still at week 4, not at week 5 — the handler performs no advancement. -/
theorem week4_get_no_promotion_cex :
    getItem 9 [hiddenWeek4Item] = Except.ok hiddenWeek4Item
    ∧ hiddenWeek4Item.week = 4 ∧ hiddenWeek4Item.deleted_at = none
    ∧ 28 ≤ (30 : Int) - hiddenWeek4Item.date_arrived :=
  ⟨rfl, rfl, rfl, by decide⟩

/-- C1 witness input. -/
def promoItem : ExclusiveItem :=
  { id := 2, category := "Clothing", picture_url := none, date_arrived := 0,
    current_price := 500, week := 4, notes := none, deleted_at := none }

theorem week4_promotion_read_paths_witness :
    { promoItem with week := 5 } ∈ (listItems 30 none [promoItem]).2
    ∧ autoPromoteToWeek5 30 (autoPromoteToWeek5 30 [promoItem])
        = autoPromoteToWeek5 30 [promoItem] := by
  have h := week4_promotion_read_paths 30 [promoItem] [] 0 promoItem
    (by decide) rfl rfl (by decide)
  exact ⟨h.1.1, h.2.2.2.2⟩

/-! ### C3 — week monotonicity -/

/-- C3 (amended): the automatic sweep never lowers a week: its row effect
either leaves the week unchanged or performs exactly the 4 → 5 step, and a
week-5 row is left entirely unchanged; the sweep is the per-row map applied
by `autoPromoteToWeek5`.  (Explicit `updateItem` and `bulkUpdate` requests,
by contrast, store the requested week verbatim and may lower it — see the
counterexample.) -/
theorem sweep_week_monotone (today : Int) (it : ExclusiveItem) (db : List ExclusiveItem) :
    (it.week ≤ (promoteRow today it).week
      ∧ ((promoteRow today it).week = it.week
          ∨ (it.week = 4 ∧ (promoteRow today it).week = 5))
      ∧ (it.week = 5 → promoteRow today it = it))
    ∧ autoPromoteToWeek5 today db = db.map (promoteRow today) := by
  refine ⟨⟨?_, promoteRow_week today it, promoteRow_week5_fix today it⟩, rfl⟩
  rcases promoteRow_week today it with h | ⟨h4, h5⟩ <;> omega

/-- C3 counterexample input: a non-deleted item already at week 5. -/
def regressionItem : ExclusiveItem :=
  { id := 1, category := "Furniture", picture_url := none, date_arrived := 0,
    current_price := 1000, week := 5, notes := none, deleted_at := none }

/-- C3 counterexample: `updateItem` stores week 1 on an item whose current
week is 5 — an explicit update regresses the markdown, so the week is not
monotonically non-decreasing across engine operations. -/
theorem updateItem_week_regression_cex :
    (updateItem 1 (some "Furniture") (some 1000) (some (RawWeek.int 1)) none none
        [regressionItem]).1 = [{ regressionItem with week := 1 }]
    ∧ (updateItem 1 (some "Furniture") (some 1000) (some (RawWeek.int 1)) none none
        [regressionItem]).2 = Except.ok { regressionItem with week := 1 }
    ∧ regressionItem.week = 5 ∧ regressionItem.deleted_at = none :=
  ⟨rfl, rfl, rfl, rfl⟩

theorem sweep_week_monotone_witness :
    regressionItem.week ≤ (promoteRow 30 regressionItem).week
    ∧ promoteRow 30 regressionItem = regressionItem :=
  ⟨(sweep_week_monotone 30 regressionItem []).1.1,
   (sweep_week_monotone 30 regressionItem []).1.2.2 rfl⟩

/-! ### C8 — the alerts listing -/

/-- C8: once the caller's user row is resolved, the alert listing returns
exactly the non-deleted items whose category is one of the caller's
subscribed categories (assembled from the three boolean flags) and whose
(week, elapsed-days) pair is due — week 1 at ≥ 7 days, week 2 at ≥ 14,
week 3 at ≥ 21, week 5 unconditionally; and a caller subscribed to zero
categories receives the empty list, whatever the inventory. -/
theorem listAlerts_spec (today : Int) (users : List AppUser) (userId : Nat)
    (db : List ExclusiveItem) (u : AppUser)
    (hu : users.find? (fun v => decide (v.id = userId)) = some u) :
    ((u.furniture_alerts = false ∧ u.clothing_alerts = false
        ∧ u.bricabrac_alerts = false) →
      listAlerts today users userId db = Except.ok [])
    ∧ ∀ rows, listAlerts today users userId db = Except.ok rows →
        ∀ e, e ∈ rows ↔ (e ∈ db ∧ e.deleted_at = none
          ∧ e.category ∈ subscribedCategories u ∧ alertDue today e) := by
  constructor
  · rintro ⟨h1, h2, h3⟩
    rw [listAlerts_eq_of_find today users userId db u hu, if_pos]
    simp [subscribedCategories, h1, h2, h3]
  · intro rows hrows e
    rw [listAlerts_eq_of_find today users userId db u hu] at hrows
    by_cases hemp : (subscribedCategories u).isEmpty = true
    · rw [if_pos hemp] at hrows
      have hr : rows = [] := by
        cases hrows
        rfl
      have hnil : subscribedCategories u = [] := List.isEmpty_iff.mp hemp
      rw [hr, hnil]
      simp
    · rw [if_neg hemp] at hrows
      have hr : rows = List.insertionSort arrivalLe (db.filter fun it =>
          decide (it.deleted_at = none ∧ it.category ∈ subscribedCategories u
            ∧ alertDue today it)) := by
        cases hrows
        rfl
      rw [hr, List.mem_insertionSort]
      constructor
      · intro hin
        obtain ⟨hedb, hp⟩ := List.mem_filter.mp hin
        obtain ⟨a, b, c⟩ := of_decide_eq_true hp
        exact ⟨hedb, a, b, c⟩
      · rintro ⟨hedb, a, b, c⟩
        exact List.mem_filter.mpr ⟨hedb, decide_eq_true ⟨a, b, c⟩⟩

/-- C8 witness input: a user with every subscription flag off. -/
def noAlertsUser : AppUser :=
  { id := 4, furniture_alerts := false, clothing_alerts := false,
    bricabrac_alerts := false }

/-- C8 witness input: an inventory holding a week-5 item, which is always
alert-due. -/
def alertsInventory : List ExclusiveItem :=
  [{ id := 5, category := "Clothing", picture_url := none, date_arrived := 0,
     current_price := 300, week := 5, notes := none, deleted_at := none }]

theorem listAlerts_spec_witness :
    listAlerts 30 [noAlertsUser] 4 alertsInventory = Except.ok [] :=
  (listAlerts_spec 30 [noAlertsUser] 4 alertsInventory noAlertsUser rfl).1
    ⟨rfl, rfl, rfl⟩

/-! ### C4 — the approved lock of discount items -/

/-- C4: once a non-deleted discount item is approved, any update attempt
(that passes the price-required validation) is rejected with a
PermissionError before any write: the store is returned unchanged, so the
item's price, notes and picture list keep their values. -/
theorem updateDiscount_approved_locked (id : Nat) (p : Int) (notes : Option String)
    (pics : Option (List String)) (db : List DiscountItem) (item : DiscountItem)
    (hfind : db.find? (fun it => decide (it.id = id ∧ it.deleted_at = none)) = some item)
    (happr : item.approval_status = "approved") :
    updateDiscountItem id (some p) notes pics db
      = (db, Except.error (ApiError.permission "Cannot edit approved items")) := by
  simp only [updateDiscountItem, hfind]
  rw [if_pos happr]

/-- C4 witness input: an approved, non-deleted discount item. -/
def approvedItem : DiscountItem :=
  { id := 21, picture_urls := [], price := 1000, notes := none, date_added := 0,
    approval_status := "approved", approval_note := none, approved_by := some 1,
    deleted_at := none }

theorem updateDiscount_approved_locked_witness :
    updateDiscountItem 21 (some 500) none none [approvedItem]
      = ([approvedItem], Except.error (ApiError.permission "Cannot edit approved items")) :=
  updateDiscount_approved_locked 21 500 none none [approvedItem] approvedItem rfl rfl

/-! ### C10 — deletion ignores the approved lock -/

/-- C10: the delete handler soft-deletes any existing non-deleted discount
item and succeeds without consulting `approval_status` — in particular an
approved item can be soft-deleted, since only the update path checks the
approved lock. -/
theorem deleteDiscount_ignores_approval (now : Int) (id : Nat) (db : List DiscountItem)
    (item : DiscountItem)
    (hfind : db.find? (fun it => decide (it.id = id ∧ it.deleted_at = none)) = some item) :
    (deleteDiscountItem now id db).2 = Except.ok ()
    ∧ { item with deleted_at := some now } ∈ (deleteDiscountItem now id db).1 := by
  have hp := List.find?_some hfind
  have hmem : item ∈ db := List.mem_of_find?_eq_some hfind
  have hany : db.any (fun it => decide (it.id = id ∧ it.deleted_at = none)) = true :=
    List.any_eq_true.mpr ⟨item, hmem, hp⟩
  unfold deleteDiscountItem
  rw [if_pos hany]
  refine ⟨rfl, ?_⟩
  have hmm := List.mem_map_of_mem (fun it : DiscountItem =>
    if it.id = id ∧ it.deleted_at = none then { it with deleted_at := some now }
    else it) hmem
  simp only [] at hmm
  rw [if_pos (of_decide_eq_true hp)] at hmm
  exact hmm

theorem deleteDiscount_ignores_approval_witness :
    (deleteDiscountItem 100 21 [approvedItem]).2 = Except.ok ()
    ∧ { approvedItem with deleted_at := some 100 }
        ∈ (deleteDiscountItem 100 21 [approvedItem]).1 :=
  deleteDiscount_ignores_approval 100 21 [approvedItem] approvedItem rfl

/-! ### Helper lemmas about the dismissal ledger -/

theorem insertIgnore_mem_self (l : List (Nat × Nat)) (p : Nat × Nat) :
    p ∈ insertIgnore l p := by
  unfold insertIgnore
  split
  · assumption
  · exact List.mem_append_right _ (List.mem_singleton_self p)

theorem insertIgnore_of_mem {l : List (Nat × Nat)} {p : Nat × Nat} (h : p ∈ l) :
    insertIgnore l p = l := by
  unfold insertIgnore
  rw [if_pos h]

theorem insertIgnore_idem (l : List (Nat × Nat)) (p : Nat × Nat) :
    insertIgnore (insertIgnore l p) p = insertIgnore l p :=
  insertIgnore_of_mem (insertIgnore_mem_self l p)

/-- Inserting with duplicate suppression into a ledger holding at most one
copy of the pair (the UNIQUE constraint) leaves exactly one copy. -/
theorem insertIgnore_count (l : List (Nat × Nat)) (p : Nat × Nat)
    (h : l.count p ≤ 1) : (insertIgnore l p).count p = 1 := by
  unfold insertIgnore
  split
  · next hin =>
    have := List.count_pos_iff.mpr hin
    omega
  · next hout =>
    rw [List.count_append]
    have h0 : l.count p = 0 := List.count_eq_zero.mpr hout
    have h1 : List.count p [p] = 1 := by simp
    omega

/-- Shape of a successful dismissal. -/
theorem dismissUrgent_eq_of_found (id userId : Nat) (st : CommState) (e : CommEntry)
    (hfind : st.log.find? (fun x => decide (x.id = id ∧ x.deleted_at = none)) = some e)
    (hurg : e.is_urgent = true) :
    dismissUrgent id userId st =
      ({ st with dismissals := insertIgnore st.dismissals (id, userId),
                 reads := insertIgnore st.reads (id, userId) }, Except.ok ()) := by
  have hfind2 := hfind
  simp only [Bool.decide_and] at hfind2
  simp [dismissUrgent, hfind2, hurg]

/-! ### C5 — dismissal is idempotent and writes a read receipt -/

/-- C5: dismissing an existing urgent entry succeeds; afterwards the
dismissal ledger holds exactly one row for the (entry, user) pair (given
the ledger's UNIQUE constraint held before, i.e. at most one copy), a read
receipt for the same pair is present, and dismissing a second time returns
success and leaves the store exactly as after the first dismissal. -/
theorem dismiss_idempotent (id userId : Nat) (st : CommState) (e : CommEntry)
    (hfind : st.log.find? (fun x => decide (x.id = id ∧ x.deleted_at = none)) = some e)
    (hurg : e.is_urgent = true)
    (hcnt : st.dismissals.count (id, userId) ≤ 1) :
    (dismissUrgent id userId st).2 = Except.ok ()
    ∧ (dismissUrgent id userId st).1.dismissals.count (id, userId) = 1
    ∧ (id, userId) ∈ (dismissUrgent id userId st).1.reads
    ∧ dismissUrgent id userId (dismissUrgent id userId st).1
        = ((dismissUrgent id userId st).1, Except.ok ()) := by
  have h1 := dismissUrgent_eq_of_found id userId st e hfind hurg
  have hfst : (dismissUrgent id userId st).1
      = { st with dismissals := insertIgnore st.dismissals (id, userId),
                  reads := insertIgnore st.reads (id, userId) } := by
    rw [h1]
  have h2 := dismissUrgent_eq_of_found id userId
    { st with dismissals := insertIgnore st.dismissals (id, userId),
              reads := insertIgnore st.reads (id, userId) } e hfind hurg
  refine ⟨?_, ?_, ?_, ?_⟩
  · rw [h1]
  · rw [hfst]
    exact insertIgnore_count _ _ hcnt
  · rw [hfst]
    exact insertIgnore_mem_self _ _
  · rw [hfst, h2]
    simp [insertIgnore_idem]

/-- C5 witness input: an urgent entry with an empty dismissal ledger. -/
def urgentNote : CommEntry :=
  { id := 32, user_id := 1, note := "alert", category := "Urgent",
    pinned := false, is_urgent := true, picture_urls := [], deleted_at := none }

def urgentSt : CommState := { log := [urgentNote], dismissals := [], reads := [] }

theorem dismiss_idempotent_witness :
    (dismissUrgent 32 2 urgentSt).2 = Except.ok ()
    ∧ (dismissUrgent 32 2 urgentSt).1.dismissals.count (32, 2) = 1 :=
  ⟨(dismiss_idempotent 32 2 urgentSt urgentNote rfl rfl (by decide)).1,
   (dismiss_idempotent 32 2 urgentSt urgentNote rfl rfl (by decide)).2.1⟩

/-! ### C6 — dismissal rejections -/

/-- C6 (amended): a dismiss call whose target entry is missing or
soft-deleted is rejected with a NotFoundError — not a ValidationError —
and writes nothing; a dismiss call on an existing non-urgent entry is
rejected with a ValidationError and writes nothing; a successful dismiss
implies the target exists (non-deleted) and is urgent, so a non-urgent
entry can never be successfully dismissed. -/
theorem dismiss_rejections (id userId : Nat) (st : CommState) :
    (st.log.find? (fun x => decide (x.id = id ∧ x.deleted_at = none)) = none →
        dismissUrgent id userId st
          = (st, Except.error (ApiError.notFound "Note not found")))
    ∧ (∀ e, st.log.find? (fun x => decide (x.id = id ∧ x.deleted_at = none)) = some e →
        e.is_urgent = false →
        dismissUrgent id userId st
          = (st, Except.error (ApiError.validation "Note is not marked as urgent")))
    ∧ ∀ r, (dismissUrgent id userId st).2 = Except.ok r →
        ∃ e, st.log.find? (fun x => decide (x.id = id ∧ x.deleted_at = none)) = some e
          ∧ e.is_urgent = true := by
  refine ⟨?_, ?_, ?_⟩
  · intro h
    have h2 := h
    simp only [Bool.decide_and] at h2
    simp [dismissUrgent, h2]
  · intro e h hu
    have h2 := h
    simp only [Bool.decide_and] at h2
    simp [dismissUrgent, h2, hu]
  · intro r hr
    cases hf : st.log.find? (fun x => decide (x.id = id ∧ x.deleted_at = none)) with
    | none =>
      have hf2 := hf
      simp only [Bool.decide_and] at hf2
      rw [show dismissUrgent id userId st
          = (st, Except.error (ApiError.notFound "Note not found")) from by
        simp [dismissUrgent, hf2]] at hr
      exact absurd hr (by simp)
    | some e =>
      by_cases hu : e.is_urgent = true
      · exact ⟨e, rfl, hu⟩
      · have hu2 : e.is_urgent = false := by
          revert hu
          cases e.is_urgent <;> simp
        have hf2 := hf
        simp only [Bool.decide_and] at hf2
        rw [show dismissUrgent id userId st
            = (st, Except.error (ApiError.validation "Note is not marked as urgent")) from by
          simp [dismissUrgent, hf2, hu2]] at hr
        exact absurd hr (by simp)

/-- C6 counterexample input: an empty communication store. -/
def emptyComm : CommState := { log := [], dismissals := [], reads := [] }

/-- C6 counterexample: dismissing a missing entry is rejected with a
NotFoundError, which is not a ValidationError. -/
theorem dismiss_missing_not_validation_cex :
    (dismissUrgent 5 1 emptyComm).2 = Except.error (ApiError.notFound "Note not found")
    ∧ ApiError.isValidation (ApiError.notFound "Note not found") = false :=
  ⟨rfl, rfl⟩

/-- C6 witness input: a non-urgent entry. -/
def generalNote : CommEntry :=
  { id := 31, user_id := 1, note := "hello", category := "General",
    pinned := false, is_urgent := false, picture_urls := [], deleted_at := none }

theorem dismiss_rejections_witness :
    dismissUrgent 31 1 { log := [generalNote], dismissals := [], reads := [] }
      = ({ log := [generalNote], dismissals := [], reads := [] },
         Except.error (ApiError.validation "Note is not marked as urgent")) :=
  (dismiss_rejections 31 1 { log := [generalNote], dismissals := [], reads := [] }).2.1
    generalNote rfl rfl

/-! ### C7 — is_urgent is derived from the category -/

/-- The stored urgency flag agrees with the stored category for any raw
request category (`category || 'General'`). -/
theorem urgent_getD_iff (category : Option String) :
    (decide (category = some "Urgent") = true) ↔ category.getD "General" = "Urgent" := by
  cases category with
  | none => decide
  | some c => simp

/-- C7: the write paths keep `is_urgent` and `category` synchronized — if
every entry of the log satisfies `is_urgent = true ↔ category = "Urgent"`,
then after any create and after any update (successful or not) every entry
of the log still satisfies it; in particular a successfully created or
updated entry always does, since both handlers recompute `is_urgent` from
the submitted category rather than accepting it independently. -/
theorem is_urgent_category_sync (role : String) (authorId : Nat) (note : Option String)
    (category : Option String) (pinned : Bool) (pics : List String) (newId : Nat)
    (uid : Nat) (upNote upCategory : Option String) (upPinned : Bool)
    (upPics : List String) (st : CommState)
    (hinv : ∀ e ∈ st.log, (e.is_urgent = true ↔ e.category = "Urgent")) :
    (∀ e ∈ (createEntry role authorId note category pinned pics newId st).1.log,
        (e.is_urgent = true ↔ e.category = "Urgent"))
    ∧ ∀ e ∈ (updateEntry role uid upNote upCategory upPinned upPics st).1.log,
        (e.is_urgent = true ↔ e.category = "Urgent") := by
  constructor
  · intro e he
    cases note with
    | none =>
      simp only [createEntry] at he
      exact hinv e he
    | some n =>
      simp only [createEntry] at he
      by_cases hrole : category = some "Urgent" ∧ role ≠ "Admin"
      · rw [if_pos hrole] at he
        exact hinv e he
      · rw [if_neg hrole] at he
        rcases List.mem_append.mp he with h1 | h2
        · exact hinv e h1
        · rw [List.mem_singleton] at h2
          subst h2
          exact urgent_getD_iff category
  · intro e he
    cases upNote with
    | none =>
      simp only [updateEntry] at he
      exact hinv e he
    | some n =>
      simp only [updateEntry] at he
      by_cases hrole : upCategory = some "Urgent" ∧ role ≠ "Admin"
      · rw [if_pos hrole] at he
        exact hinv e he
      · rw [if_neg hrole] at he
        cases hf : st.log.find? (fun x => decide (x.id = uid ∧ x.deleted_at = none)) with
        | none =>
          rw [hf] at he
          exact hinv e he
        | some x0 =>
          rw [hf] at he
          obtain ⟨x, hx, hfx⟩ := List.mem_map.mp he
          by_cases hcond : x.id = uid ∧ x.deleted_at = none
          · rw [if_pos hcond] at hfx
            rw [← hfx]
            exact urgent_getD_iff upCategory
          · rw [if_neg hcond] at hfx
            rw [← hfx]
            exact hinv x hx

/-- C7 witness: the entry created by an admin with category `Urgent`. -/
def firedEntry : CommEntry :=
  { id := 41, user_id := 1, note := "fire", category := "Urgent",
    pinned := false, is_urgent := true, picture_urls := [], deleted_at := none }

theorem is_urgent_category_sync_witness :
    firedEntry.is_urgent = true ↔ firedEntry.category = "Urgent" :=
  (is_urgent_category_sync "Admin" 1 (some "fire") (some "Urgent") false [] 41
      0 none none false [] emptyComm (by simp [emptyComm])).1 firedEntry (by decide)

/-! ### C9 — the bulk update -/

/-- A single bulk statement with an integer week is the row map of its
UPDATE. -/
theorem bulkApplyOne_int (db : List ExclusiveItem) (b : BulkItem) (k : Int)
    (h : b.week = RawWeek.int k) :
    bulkApplyOne db b = db.map fun it =>
      if it.id = b.id ∧ it.deleted_at = none then
        { it with current_price := b.current_price, week := k }
      else it := by
  unfold bulkApplyOne
  rw [h]

theorem bulkRowSpec_nil : bulkRowSpec [] = fun it => it :=
  funext fun _ => rfl

/-- Pointwise step of the fold/map correspondence: applying the head
statement and then the row spec of the tail equals the row spec of the
whole batch, provided the tail holds no element with the head's id. -/
theorem bulkRowSpec_step (b : BulkItem) (bs : List BulkItem) (k : Int)
    (hk : b.week = RawWeek.int k) (hnotin : ∀ b2 ∈ bs, b2.id ≠ b.id)
    (it : ExclusiveItem) :
    bulkRowSpec bs (if it.id = b.id ∧ it.deleted_at = none then
        { it with current_price := b.current_price, week := k } else it)
      = bulkRowSpec (b :: bs) it := by
  have hfbs : ∀ y : ExclusiveItem, y.id = it.id → it.id = b.id →
      bs.find? (fun b2 => decide (b2.id = y.id)) = none := by
    intro y hy hid
    apply List.find?_eq_none.mpr
    intro x hx
    simp only [decide_eq_true_eq]
    rw [hy, hid]
    exact hnotin x hx
  by_cases hid : it.id = b.id
  · have hcons : (b :: bs).find? (fun b2 => decide (b2.id = it.id)) = some b := by
      rw [List.find?_cons_of_pos]
      exact decide_eq_true hid.symm
    by_cases hdel : it.deleted_at = none
    · rw [if_pos ⟨hid, hdel⟩]
      unfold bulkRowSpec
      rw [hfbs { it with current_price := b.current_price, week := k } rfl hid, hcons]
      simp [RawWeek.toIntD, hdel, hk]
    · rw [if_neg fun hc => hdel hc.2]
      unfold bulkRowSpec
      rw [hfbs it rfl hid, hcons]
      simp [hdel]
  · have hcons : (b :: bs).find? (fun b2 => decide (b2.id = it.id))
        = bs.find? (fun b2 => decide (b2.id = it.id)) := by
      rw [List.find?_cons_of_neg]
      simp only [decide_eq_true_eq]
      exact fun hc => hid hc.symm
    rw [if_neg fun hc => hid hc.1]
    unfold bulkRowSpec
    rw [hcons]

/-- The bulk route's sequence of independent UPDATE statements computes the
row spec on every row, when the batch has all-integer weeks and no
duplicate ids. -/
theorem bulk_foldl_eq_map (items : List BulkItem) :
    ∀ db : List ExclusiveItem, (∀ b ∈ items, b.week.isInt = true) →
      (items.map BulkItem.id).Nodup →
      items.foldl bulkApplyOne db = db.map (bulkRowSpec items) := by
  induction items with
  | nil =>
    intro db _ _
    rw [bulkRowSpec_nil]
    simp
  | cons b bs ih =>
    intro db hint hnod
    obtain ⟨k, hk⟩ : ∃ k, b.week = RawWeek.int k := by
      have hbi := hint b (List.mem_cons_self b bs)
      cases hbw : b.week with
      | int k => exact ⟨k, rfl⟩
      | text s =>
        rw [hbw] at hbi
        exact absurd hbi (by simp [RawWeek.isInt])
    have hnotin : ∀ b2 ∈ bs, b2.id ≠ b.id := by
      intro b2 hb2 heq
      rw [List.map_cons, List.nodup_cons] at hnod
      exact hnod.1 (List.mem_map.mpr ⟨b2, hb2, heq⟩)
    have htail : ∀ b2 ∈ bs, b2.week.isInt = true :=
      fun b2 hb2 => hint b2 (List.mem_cons_of_mem b hb2)
    have hnodtail : (bs.map BulkItem.id).Nodup := by
      rw [List.map_cons, List.nodup_cons] at hnod
      exact hnod.2
    calc (b :: bs).foldl bulkApplyOne db
        = bs.foldl bulkApplyOne (bulkApplyOne db b) := rfl
      _ = (bulkApplyOne db b).map (bulkRowSpec bs) := ih _ htail hnodtail
      _ = ((db.map fun it =>
            if it.id = b.id ∧ it.deleted_at = none then
              { it with current_price := b.current_price, week := k }
            else it)).map (bulkRowSpec bs) := by rw [bulkApplyOne_int db b k hk]
      _ = db.map (bulkRowSpec (b :: bs)) := by
            rw [List.map_map]
            exact List.map_congr_left fun it _ => bulkRowSpec_step b bs k hk hnotin it

/-- C9 (amended): for a non-empty batch of distinct ids whose week values
are integers, the bulk update succeeds with a reported count equal to the
length of the submitted array — regardless of how many rows matched — and
rewrites the store row-wise: the element matching a non-deleted row's id
overwrites that row's price and week verbatim, with no validation of the
week's range; rows matching no element, and soft-deleted rows, are left
unchanged (ids matching no non-deleted row are silently skipped). -/
theorem bulkUpdate_verbatim (items : List BulkItem) (db : List ExclusiveItem)
    (hne : items ≠ []) (hint : ∀ b ∈ items, b.week.isInt = true)
    (hnod : (items.map BulkItem.id).Nodup) :
    bulkUpdate items db = (db.map (bulkRowSpec items), Except.ok items.length) := by
  unfold bulkUpdate
  rw [if_neg fun h => hne (List.isEmpty_iff.mp h)]
  rw [if_pos (List.all_eq_true.mpr hint)]
  rw [bulk_foldl_eq_map items db hint hnod]

/-- C9 witness input: a non-deleted week-2 row. -/
def bulkBaseItem : ExclusiveItem :=
  { id := 11, category := "Furniture", picture_url := none, date_arrived := 0,
    current_price := 2000, week := 2, notes := none, deleted_at := none }

/-- C9 witness: a week far outside 1..5 is stored verbatim with a success
count of 1. -/
theorem bulkUpdate_verbatim_witness :
    bulkUpdate [{ id := 11, current_price := 777, week := RawWeek.int 99 }] [bulkBaseItem]
      = ([{ bulkBaseItem with current_price := 777, week := 99 }], Except.ok 1) := by
  have h := bulkUpdate_verbatim
    [{ id := 11, current_price := 777, week := RawWeek.int 99 }] [bulkBaseItem]
    (by simp) (by decide) (by decide)
  rw [h]
  rfl

/-- C9 counterexample input: a non-deleted week-4 row. -/
def sentinelTarget : ExclusiveItem :=
  { id := 12, category := "Clothing", picture_url := none, date_arrived := 0,
    current_price := 400, week := 4, notes := none, deleted_at := none }

/-- C9 counterexample: a batch carrying the raw `"color-cycle"` sentinel is
not stored as-is — the INTEGER week column rejects the non-numeric
parameter, the row keeps its old price and week, and the route reports a
storage failure instead of a success count. -/
theorem bulkUpdate_sentinel_cex :
    bulkUpdate [{ id := 12, current_price := 300, week := RawWeek.text "color-cycle" }]
        [sentinelTarget]
      = ([sentinelTarget], Except.error (ApiError.storage "Failed to bulk update items")) :=
  rfl

end LBTS
